import Mathlib

/-!
Verification development for the storage layer of the `inspectd` repository
(github.com/Aldiwildan77/inspectd).

The Go source under scrutiny consists of the snapshot value types
(`pkg/sdk/types/snapshot.go`), the query descriptor (`storage/interface.go`),
and the four storage backends: `BoundedMemoryStorage` / `MemoryStorage`
(`pkg/sdk/storage/bounded_memory.go`, `memory.go`), `FileStorage` /
`ManagedFileStorage` (`pkg/sdk/storage/file.go`, `managed_file.go`),
`DatabaseStorage` (`sdk/storage/database.go`) and `CloudObjectStorage`
(`sdk/storage/object_storage.go`).

Modelling conventions, fixed once here:

* Go machine integers (`int`, `uint64`, `uint32`) are modelled as `Int`/`Nat`;
  no arithmetic is performed on them by the modelled code, they are only
  stored and compared.
* Go `float64` fields (`uptime_seconds`, `last_gc_pause_seconds`,
  `gc_cpu_fraction`) are only ever stored and copied by the storage layer,
  never computed with; each is modelled as its 64-bit pattern, a `Nat`.
* A Go `*T` pointer to a nested record is modelled as a heap address (`Nat`)
  together with an explicit heap (`Heap` below) mapping addresses to record
  values.  Copying a Go struct value (`snapshotCopy := *snapshot`) copies the
  address fields, exactly as in Go; dereferencing goes through the heap.
* `time.Time` values produced by `Snapshot.ParseTimestamp` are modelled as a
  single `Nat` that orders chronologically (an injective monotone encoding of
  the parsed UTC date-time); `t.Before(u)` is `t < u`, `t.After(u)` is
  `u < t`.
* `sort.Slice` is not a stable sort and leaves the relative order of
  comparator-equal elements unspecified; it is modelled by
  `List.insertionSort`, which produces one of the permitted orders.
-/

namespace Inspectd

/-- `types.RuntimeInfo` (pkg/sdk/types/snapshot.go): Go version string,
goroutine count, GOMAXPROCS, CPU count, uptime.  `uptime_seconds` is a Go
`float64`, modelled as its bit pattern (it is only stored, never computed
with). -/
structure RuntimeInfo where
  goVersion : String
  numGoroutines : Int
  gomaxprocs : Int
  numCPU : Int
  uptimeSeconds : Nat
deriving DecidableEq

/-- `types.MemoryInfo` (pkg/sdk/types/snapshot.go).  `uint64`/`uint32`
counters are modelled as `Nat`; the two `float64` fields as bit patterns. -/
structure MemoryInfo where
  heapInUseBytes : Nat
  heapAllocatedBytes : Nat
  heapObjects : Nat
  totalAllocBytes : Nat
  gcCycles : Nat
  lastGCPauseSeconds : Nat
  gcCPUFraction : Nat
deriving DecidableEq

/-- `types.GoroutineInfo` (pkg/sdk/types/snapshot.go). -/
structure GoroutineInfo where
  totalCount : Int
deriving DecidableEq

/-- `types.Snapshot` (pkg/sdk/types/snapshot.go): the timestamp string plus
three POINTERS to nested records (`Runtime *RuntimeInfo`,
`Memory *MemoryInfo`, `Goroutines *GoroutineInfo`).  The pointers are heap
addresses; a Go struct copy `*snapshot` copies exactly these four fields. -/
structure GoSnapshot where
  timestamp : String
  runtime : Nat
  memory : Nat
  goroutines : Nat
deriving DecidableEq

/-- The heap backing the nested-record pointers of `GoSnapshot`. -/
structure Heap where
  runtimes : Nat → RuntimeInfo
  memories : Nat → MemoryInfo
  goroutineInfos : Nat → GoroutineInfo

/-- A fully dereferenced snapshot: the field values an observer (caller or
reader of persisted state) sees for a `GoSnapshot` under a given heap. -/
structure SnapshotView where
  timestamp : String
  runtime : RuntimeInfo
  memory : MemoryInfo
  goroutines : GoroutineInfo
deriving DecidableEq

/-- Dereference a snapshot's nested pointers through heap `h`. -/
def observe (h : Heap) (s : GoSnapshot) : SnapshotView :=
  ⟨s.timestamp, h.runtimes s.runtime, h.memories s.memory,
    h.goroutineInfos s.goroutines⟩

/-! ### Timestamp parsing

`Snapshot.ParseTimestamp` is `time.Parse(time.RFC3339Nano, s.Timestamp)`.
The model below parses the canonical UTC form produced by the program itself
(`time.Now().UTC().Format(time.RFC3339Nano)` and the fixed-width file/object
key format): `YYYY-MM-DDTHH:MM:SS[.1-9 fractional digits]Z`.  Timestamps with
a numeric zone offset, lower-case markers, or other RFC 3339 variants are
conservatively rejected; per-month day counts are not re-validated beyond
`1..31`.  Every claim below either controls its concrete timestamps or is
insensitive to exactly which strings parse (the code under study applies the
same parser at every point where the model does). -/

/-- Value of a decimal digit character, `none` for a non-digit. -/
def digitVal (c : Char) : Option Nat :=
  if '0' ≤ c ∧ c ≤ '9' then some (c.toNat - 48) else none

/-- Two-digit decimal field. -/
def digits2 (a b : Char) : Option Nat := do
  let x ← digitVal a
  let y ← digitVal b
  pure (10 * x + y)

/-- Four-digit decimal field. -/
def digits4 (a b c d : Char) : Option Nat := do
  let x ← digitVal a
  let y ← digitVal b
  let z ← digitVal c
  let w ← digitVal d
  pure (1000 * x + 100 * y + 10 * z + w)

/-- Fractional-second digits terminated by the `Z` zone marker: between one
and nine digits, scaled to nanoseconds. -/
def fracDigits : List Char → Nat → Nat → Option Nat
  | ['Z'], acc, k => if 1 ≤ k ∧ k ≤ 9 then some (acc * 10 ^ (9 - k)) else none
  | c :: rest, acc, k =>
    match digitVal c with
    | some d => if k < 9 then fracDigits rest (10 * acc + d) (k + 1) else none
    | none => none
  | [], _, _ => none

/-- Injective, chronologically monotone encoding of a validated UTC
date-time into a single `Nat` (field ranges are enforced by the parser, so
lexicographic field order coincides with this numeric order). -/
def encodeTime (y mo d h mi se nanos : Nat) : Nat :=
  (((((y * 13 + mo) * 32 + d) * 24 + h) * 60 + mi) * 60 + se) * 1000000000
    + nanos

/-- Model of `Snapshot.ParseTimestamp` /
`time.Parse(time.RFC3339Nano, ·)` on the canonical UTC format (see the
section comment).  Returns the chronological encoding on success. -/
def parseTimestamp (s : String) : Option Nat :=
  match s.data with
  | y1 :: y2 :: y3 :: y4 :: '-' :: m1 :: m2 :: '-' :: d1 :: d2 :: 'T' ::
      h1 :: h2 :: ':' :: n1 :: n2 :: ':' :: s1 :: s2 :: rest => do
    let y ← digits4 y1 y2 y3 y4
    let mo ← digits2 m1 m2
    let d ← digits2 d1 d2
    let h ← digits2 h1 h2
    let mi ← digits2 n1 n2
    let se ← digits2 s1 s2
    let nanos ← match rest with
      | ['Z'] => some 0
      | '.' :: rest2 => fracDigits rest2 0 0
      | _ => none
    if 1 ≤ mo ∧ mo ≤ 12 ∧ 1 ≤ d ∧ d ≤ 31 ∧ h ≤ 23 ∧ mi ≤ 59 ∧ se ≤ 59 then
      some (encodeTime y mo d h mi se nanos)
    else
      none
  | _ => none

/-- `true` when the snapshot's timestamp parses (`ParseTimestamp` returns
no error). -/
def parseable (s : GoSnapshot) : Bool :=
  (parseTimestamp s.timestamp).isSome

/-- Sort key used by every `sortSnapshots`-style comparator in the source:
`ti, _ := results[i].ParseTimestamp()` ignores the error, leaving the Go
zero `time.Time` on failure; the zero time is modelled as encoding `0`,
which every parseable timestamp exceeds. -/
def snapKey (s : GoSnapshot) : Nat :=
  (parseTimestamp s.timestamp).getD 0

/-! ### Query descriptor (`storage/interface.go`) -/

/-- `type OrderBy int`; the constants are declared with `iota`, so
`OrderByTimeAsc = 0` and `OrderByTimeDesc = 1`.  Modelled as `Nat` to keep
the Go zero value visible. -/
abbrev OrderBy := Nat

/-- `OrderByTimeAsc OrderBy = iota` — the first constant, hence `0`. -/
def orderByTimeAsc : OrderBy := 0

/-- `OrderByTimeDesc` — the second `iota` value, hence `1`. -/
def orderByTimeDesc : OrderBy := 1

/-- `storage.QueryOptions`: optional inclusive start/end bounds, `Limit int`
(`0` = unbounded), and the `OrderBy` flag. -/
structure QueryOptions where
  startTime : Option Nat
  endTime : Option Nat
  limit : Int
  orderBy : OrderBy
deriving DecidableEq

/-- The Go zero value `QueryOptions{}` substituted by every backend when the
caller passes a nil descriptor. -/
def zeroQueryOptions : QueryOptions :=
  ⟨none, none, 0, orderByTimeAsc⟩

/-- The per-snapshot filter step shared verbatim by every backend's `Query`
loop: skip on timestamp parse failure, skip when the timestamp is
`Before(*opts.StartTime)`, skip when it is `After(*opts.EndTime)`. -/
def keepSnap (opts : QueryOptions) (s : GoSnapshot) : Bool :=
  match parseTimestamp s.timestamp with
  | none => false
  | some t =>
    (match opts.startTime with
     | none => true
     | some st => decide (st ≤ t)) &&
    (match opts.endTime with
     | none => true
     | some et => decide (t ≤ et))

/-- Ascending comparator: `ti.Before(tj)` admits exactly the orders that are
non-decreasing in `snapKey`. -/
def snapLE (a b : GoSnapshot) : Prop := snapKey a ≤ snapKey b

/-- Descending comparator: `tj.Before(ti)` admits exactly the orders that are
non-increasing in `snapKey`. -/
def snapGE (a b : GoSnapshot) : Prop := snapKey b ≤ snapKey a

instance : DecidableRel snapLE := fun _ _ => Nat.decLe _ _

instance : DecidableRel snapGE := fun _ _ => Nat.decLe _ _

instance : IsTotal GoSnapshot snapLE := ⟨fun _ _ => Nat.le_total _ _⟩

instance : IsTrans GoSnapshot snapLE := ⟨fun _ _ _ => Nat.le_trans⟩

instance : IsTotal GoSnapshot snapGE := ⟨fun _ _ => Nat.le_total _ _⟩

instance : IsTrans GoSnapshot snapGE := ⟨fun _ _ _ h h' => Nat.le_trans h' h⟩

/-- `sort.Slice(results, ...)` with the comparator
`if opts.OrderBy == OrderByTimeAsc { return ti.Before(tj) };
return tj.Before(ti)`. -/
def sortSnapshots (orderBy : OrderBy) (l : List GoSnapshot) : List GoSnapshot :=
  if orderBy = orderByTimeAsc then List.insertionSort snapLE l
  else List.insertionSort snapGE l

/-- `if opts.Limit > 0 && len(results) > opts.Limit
{ results = results[:opts.Limit] }`. -/
def applyLimit (limit : Int) (l : List GoSnapshot) : List GoSnapshot :=
  if 0 < limit ∧ limit < (l.length : Int) then l.take limit.toNat else l

/-- The common body of `Query` shared (textually duplicated) by
`BoundedMemoryStorage.Query`, `MemoryStorage.Query`, `FileStorage.Query`
and `CloudObjectStorage.Query`: substitute the zero descriptor for nil,
filter by parseability and the inclusive time bounds, sort per the order
flag, truncate to the limit.  `snaps` is the list of candidate snapshot
values the backend iterates over. -/
def queryList (optsIn : Option QueryOptions) (snaps : List GoSnapshot) :
    List GoSnapshot :=
  applyLimit (optsIn.getD zeroQueryOptions).limit
    (sortSnapshots (optsIn.getD zeroQueryOptions).orderBy
      (snaps.filter (keepSnap (optsIn.getD zeroQueryOptions))))

/-! ### BoundedMemoryStorage (pkg/sdk/storage/bounded_memory.go)

The backing state is the slice `m.snapshots`, a list of top-level
`GoSnapshot` records (each element is the value `*snapshot` copied at store
time; the nested pointers inside it are shared with whoever else holds
them). -/

/-- `NewBoundedMemoryStorage`: a non-positive `maxSize` is replaced by the
default limit 1000. -/
def newBoundedMemoryStorage (maxSize : Int) : Nat :=
  if maxSize ≤ 0 then 1000 else maxSize.toNat

/-- `BoundedMemoryStorage.Store`: evict the first element when
`len(m.snapshots) >= m.maxSize`, then append the shallow copy
`snapshotCopy := *snapshot`. -/
def bmStore (maxSize : Nat) (snaps : List GoSnapshot) (s : GoSnapshot) :
    List GoSnapshot :=
  (if snaps.length ≥ maxSize then snaps.drop 1 else snaps) ++ [s]

/-- `BoundedMemoryStorage.StoreBatch`: compute `totalAfter`; when it exceeds
`maxSize`, evict `evictCount` oldest entries where `evictCount` is clamped
to `len(m.snapshots)`; then append a shallow copy of every batch element in
order. -/
def bmStoreBatch (maxSize : Nat) (snaps batch : List GoSnapshot) :
    List GoSnapshot :=
  let totalAfter := snaps.length + batch.length
  (if totalAfter > maxSize then
      snaps.drop (min (totalAfter - maxSize) snaps.length)
    else snaps) ++ batch

/-- Successive `Store` calls, oldest first. -/
def bmStoreAll (maxSize : Nat) (snaps batch : List GoSnapshot) :
    List GoSnapshot :=
  batch.foldl (bmStore maxSize) snaps

/-- `BoundedMemoryStorage.Query`: nil-descriptor substitution, the common
filter on parsed timestamps and inclusive bounds, `sort.Slice`, limit
truncation; always returns a nil error. -/
def bmQuery (optsIn : Option QueryOptions) (snaps : List GoSnapshot) :
    List GoSnapshot :=
  queryList optsIn snaps

/-- `MemoryStorage.Query` (pkg/sdk/storage/memory.go): the body is
line-for-line the same as `BoundedMemoryStorage.Query`. -/
def memQuery (optsIn : Option QueryOptions) (snaps : List GoSnapshot) :
    List GoSnapshot :=
  queryList optsIn snaps

/-! ### FileStorage (pkg/sdk/storage/file.go)

`Query` lists the directory, skips non-`.json` entries and subdirectories,
reads each file and runs `types.FromJSON` on its bytes.  A directory is
modelled as the list of its `.json` snapshot files, each represented by the
outcome of reading-and-parsing it: `none` for an unreadable or
JSON-malformed file (skipped silently), `some s` for a file whose payload
deserializes to the snapshot `s`. -/

/-- `FileStorage.Query`: skip unreadable/malformed files, then apply the
common filter/sort/limit pipeline to the parsed snapshots. -/
def fileQuery (optsIn : Option QueryOptions)
    (dir : List (Option GoSnapshot)) : List GoSnapshot :=
  queryList optsIn (dir.filterMap id)

/-! ### ManagedFileStorage retention (pkg/sdk/storage/managed_file.go)

`cleanup` lists the directory and builds, for each snapshot file, a
`fileInfo{path, timestamp, modTime}` where `timestamp` is the parsed
snapshot timestamp when the file parses and the file's modification time
otherwise (lines 105-129).  The model takes that list of
`(path, effective timestamp)` records as input; deletions are modelled as
succeeding (`os.Remove` failures are tolerated by the code and merely leave
extra files behind). -/

/-- One entry of the `files` slice built by `ManagedFileStorage.cleanup`:
the file path and its effective timestamp. -/
structure FileEntry where
  path : String
  timestamp : Nat
deriving DecidableEq

/-- Ascending effective-timestamp comparator of `cleanup`'s `sort.Slice`. -/
def fileLE (a b : FileEntry) : Prop := a.timestamp ≤ b.timestamp

instance : DecidableRel fileLE := fun _ _ => Nat.decLe _ _

instance : IsTotal FileEntry fileLE := ⟨fun _ _ => Nat.le_total _ _⟩

instance : IsTrans FileEntry fileLE := ⟨fun _ _ _ => Nat.le_trans⟩

/-- `cleanup`'s `sort.Slice(files, ...)`: oldest effective timestamp
first. -/
def sortFiles (files : List FileEntry) : List FileEntry :=
  List.insertionSort fileLE files

/-- The count-based marking loop of `cleanup` (lines 155-171): walk the
sorted files oldest-first, skip paths already marked, mark unmarked paths
until `deleteCount` reaches zero. -/
def countMark : List FileEntry → Nat → List String → List String
  | [], _, marked => marked
  | f :: rest, dc, marked =>
    if dc = 0 then marked
    else if f.path ∈ marked then countMark rest dc marked
    else countMark rest (dc - 1) (marked ++ [f.path])

/-- The age phase of `cleanup` (lines 140-147): with `maxAge > 0`, the
paths of every file whose effective timestamp is strictly before
`now - maxAge`, walked in sorted order; otherwise no age marks. -/
def ageMarks (now maxAge : Nat) (files : List FileEntry) : List String :=
  if 0 < maxAge then
    ((sortFiles files).filter (fun f => f.timestamp < now - maxAge)).map
      (fun f => f.path)
  else []

/-- `ManagedFileStorage.cleanup`'s marking phase: sort by effective
timestamp ascending; when `maxAge > 0` mark every file strictly older than
`now - maxAge`; when `maxFiles > 0` and the unmarked remainder
(`remaining := len(files) - len(toDelete)`) exceeds it, mark oldest
unmarked files until the cap is met.  Returns the list of paths to
delete. -/
def cleanupToDelete (now maxAge maxFiles : Nat) (files : List FileEntry) :
    List String :=
  if 0 < maxFiles then
    if maxFiles
        < (sortFiles files).length - (ageMarks now maxAge files).length then
      countMark (sortFiles files)
        ((sortFiles files).length - (ageMarks now maxAge files).length
          - maxFiles)
        (ageMarks now maxAge files)
    else ageMarks now maxAge files
  else ageMarks now maxAge files

/-- The files surviving one `cleanup` pass (all `os.Remove` calls
succeeding). -/
def cleanupSurvivors (now maxAge maxFiles : Nat) (files : List FileEntry) :
    List FileEntry :=
  files.filter (fun f => ¬ f.path ∈ cleanupToDelete now maxAge maxFiles files)

/-! ### DatabaseStorage (sdk/storage/database.go) -/

/-- `storage.DatabaseStorageConfig`. -/
structure DatabaseStorageConfig where
  driver : String
  dsn : String
  tableName : String
  maxConnections : Int
deriving DecidableEq

/-- The table name `NewDatabaseStorage` passes to `createTable`: the
configured `TableName`, with the empty string replaced by
`"inspectd_snapshots"` (lines 44-46). -/
def effectiveTableName (c : DatabaseStorageConfig) : String :=
  if c.tableName = "" then "inspectd_snapshots" else c.tableName

/-- The INSERT statement used by both `Store` (lines 135-143) and
`StoreBatch` (lines 164-172): the table name is the literal
`inspectd_snapshots` in every driver branch. -/
def dbInsertSQL (driver : String) : String :=
  if driver = "postgres" then
    "INSERT INTO inspectd_snapshots (timestamp, data) VALUES ($1, $2::jsonb)"
  else if driver = "mysql" then
    "INSERT INTO inspectd_snapshots (timestamp, data) VALUES (?, ?)"
  else
    "INSERT INTO inspectd_snapshots (timestamp, data) VALUES (?, ?)"

/-- The base SELECT of `DatabaseStorage.Query` (line 210): again the literal
table name `inspectd_snapshots`. -/
def dbQueryBaseSQL : String :=
  "SELECT data FROM inspectd_snapshots WHERE 1=1"

/-- A stored row: the parsed `timestamp` column and the `data` column.  The
`data` payload is the byte string `snapshot.ToJSON()` produced: JSON
serialization of the dereferenced snapshot is injective and round-trips
through `types.FromJSON`, so the payload is represented by the serialized
field contents, a `SnapshotView`.  (Rows planted in the table by anything
other than this backend are out of scope — spec §3 treats external removal
or modification of database rows as outside the system.) -/
abbrev DBRow := Nat × SnapshotView

/-- Whether a `float64` bit pattern is non-finite (NaN or ±Inf): its 11
exponent bits are all ones.  `encoding/json` refuses to marshal such
values (`json.UnsupportedValueError`). -/
def float64NonFinite (bits : Nat) : Bool :=
  bits / 2 ^ 52 % 2 ^ 11 = 2 ^ 11 - 1

/-- `snapshot.ToJSON()` — `json.Marshal` on the dereferenced snapshot.  It
fails exactly when one of the three `float64` fields (`uptime_seconds`,
`last_gc_pause_seconds`, `gc_cpu_fraction`) holds a NaN or infinity, which
`encoding/json` rejects; otherwise it yields the serialized field
contents. -/
def snapshotToJSON (h : Heap) (s : GoSnapshot) : Option SnapshotView :=
  if float64NonFinite (h.runtimes s.runtime).uptimeSeconds
      || float64NonFinite (h.memories s.memory).lastGCPauseSeconds
      || float64NonFinite (h.memories s.memory).gcCPUFraction then
    none
  else some (observe h s)

/-- The row `StoreBatch`/`Store` would insert for a snapshot, or `none` when
the snapshot is skipped (its timestamp fails to parse or its JSON
serialization fails). -/
def dbRowOf (h : Heap) (s : GoSnapshot) : Option DBRow :=
  match parseTimestamp s.timestamp with
  | none => none
  | some ts =>
    match snapshotToJSON h s with
    | none => none
    | some data => some (ts, data)

/-- The per-snapshot loop of `DatabaseStorage.StoreBatch` (lines 180-195),
run under heap `h` against an execution-failure oracle `execErr` for
`stmt.ExecContext`: timestamp-parse failures and serialization failures
`continue`; an execution error returns immediately (`none`, triggering the
deferred `tx.Rollback`); otherwise the row joins the transaction's pending
writes. -/
def dbInsertLoop (h : Heap) (execErr : DBRow → Bool) :
    List GoSnapshot → List DBRow → Option (List DBRow)
  | [], pending => some pending
  | s :: rest, pending =>
    match parseTimestamp s.timestamp with
    | none => dbInsertLoop h execErr rest pending
    | some ts =>
      match snapshotToJSON h s with
      | none => dbInsertLoop h execErr rest pending
      | some data =>
        if execErr (ts, data) then none
        else dbInsertLoop h execErr rest (pending ++ [(ts, data)])

/-- `DatabaseStorage.StoreBatch`: one transaction around the insert loop.
On an execution error the deferred `tx.Rollback()` leaves the table
unchanged and the call reports failure; otherwise `tx.Commit()` publishes
every pending row.  Returns the resulting table and whether the
transaction committed. -/
def dbStoreBatch (h : Heap) (execErr : DBRow → Bool) (table : List DBRow)
    (snaps : List GoSnapshot) : List DBRow × Bool :=
  match dbInsertLoop h execErr snaps [] with
  | none => (table, false)
  | some pending => (table ++ pending, true)

/-! Semantic view of which tables the backend touches.  `createTable` is the
only statement built from the configured name; `Store`, `StoreBatch` and
`Query` all address the literal `inspectd_snapshots` (see `dbInsertSQL`,
`dbQueryBaseSQL`).  The database is a map from table names to row lists. -/

/-- The database: existing tables with their rows. -/
abbrev TableMap := List (String × List DBRow)

/-- `CREATE TABLE IF NOT EXISTS <name> ...` executed by `createTable`. -/
def createTableIfAbsent (name : String) (db : TableMap) : TableMap :=
  if (db.lookup name).isSome then db else (name, []) :: db

/-- The tables existing after `NewDatabaseStorage(config)` bootstraps an
empty database: exactly the configured (or defaulted) table. -/
def newDatabaseStorageTables (c : DatabaseStorageConfig) : TableMap :=
  createTableIfAbsent (effectiveTableName c) []

/-- `DatabaseStorage.Store`'s write, per `dbInsertSQL`: insert into the
literal table `inspectd_snapshots`; `none` (a database error) when that
table does not exist. -/
def dbStoreTables (db : TableMap) (row : DBRow) : Option TableMap :=
  match db.lookup "inspectd_snapshots" with
  | none => none
  | some rows =>
    some (db.map (fun p =>
      if p.1 = "inspectd_snapshots" then (p.1, rows ++ [row]) else p))

/-- `DatabaseStorage.Query`'s read, per `dbQueryBaseSQL`: select from the
literal table `inspectd_snapshots`; `none` (a database error) when that
table does not exist. -/
def dbQueryTables (db : TableMap) : Option (List DBRow) :=
  db.lookup "inspectd_snapshots"

/-- Ascending order on the indexed `timestamp` column. -/
def rowLE (a b : DBRow) : Prop := a.1 ≤ b.1

/-- Descending order on the indexed `timestamp` column. -/
def rowGE (a b : DBRow) : Prop := b.1 ≤ a.1

instance : DecidableRel rowLE := fun _ _ => Nat.decLe _ _

instance : DecidableRel rowGE := fun _ _ => Nat.decLe _ _

/-- The WHERE clause `DatabaseStorage.Query` builds (lines 214-234):
optional `timestamp >= start` and `timestamp <= end` conjuncts over the
`timestamp` column, both inclusive. -/
def dbQueryWhere (opts : QueryOptions) (r : DBRow) : Bool :=
  (match opts.startTime with
   | none => true
   | some st => decide (st ≤ r.1)) &&
  (match opts.endTime with
   | none => true
   | some et => decide (r.1 ≤ et))

/-- `ORDER BY timestamp ASC`/`DESC` (lines 237-241), chosen by
`opts.OrderBy == OrderByTimeAsc`; ties between equal column values are
returned in an engine-chosen order, modelled like the other sorts by
`List.insertionSort`. -/
def sortRows (orderBy : OrderBy) (l : List DBRow) : List DBRow :=
  if orderBy = orderByTimeAsc then List.insertionSort rowLE l
  else List.insertionSort rowGE l

/-- The `LIMIT` clause, added only when `opts.Limit > 0` (lines 244-251). -/
def applyRowLimit (limit : Int) (l : List DBRow) : List DBRow :=
  if 0 < limit then l.take limit.toNat else l

/-- The row set the built SELECT returns from the `inspectd_snapshots`
table: rows filtered by the WHERE bounds on the `timestamp` column, ordered
per the descriptor (nil replaced by the zero descriptor at lines 205-207),
truncated by `LIMIT`. -/
def dbQueryRows (optsIn : Option QueryOptions) (table : List DBRow) :
    List DBRow :=
  applyRowLimit (optsIn.getD zeroQueryOptions).limit
    (sortRows (optsIn.getD zeroQueryOptions).orderBy
      (table.filter (dbQueryWhere (optsIn.getD zeroQueryOptions))))

/-- `DatabaseStorage.Query` (lines 201-277): execute the SELECT and scan
each returned row, deserializing its `data` payload with `types.FromJSON`
(rows failing to scan or deserialize are skipped).  A payload this backend
wrote always deserializes (JSON round-trip), and externally planted rows
are out of scope (spec §3), so the scan yields each row's serialized
contents. -/
def dbQuery (optsIn : Option QueryOptions) (table : List DBRow) :
    List SnapshotView :=
  (dbQueryRows optsIn table).map (fun r => r.2)

/-! ### CloudObjectStorage (sdk/storage/object_storage.go)

The injected `ObjectStorage` client is modelled as the bucket's contents: a
list of objects, each carrying its key and the outcome of
`GetObject`-then-`FromJSON` on it (`none`: the fetch itself errors;
`some none`: fetched bytes that fail `FromJSON`; `some (some s)`: a payload
deserializing to `s`).  `DeleteObject` failures come from a `fails`
oracle. -/

/-- One object in the bucket under the configured key prefix. -/
structure CloudObject where
  key : String
  fetch : Option (Option GoSnapshot)
deriving DecidableEq

/-- `GetObject` on the modelled bucket: error when the key is absent,
otherwise the object's fetch outcome. -/
def getObject (store : List CloudObject) (key : String) :
    Option (Option GoSnapshot) :=
  match store.find? (fun o => o.key = key) with
  | none => none
  | some o => o.fetch

/-- `DeleteObject`: when the oracle reports an error the bucket is
unchanged (the error is tolerated by the caller); otherwise the object is
removed. -/
def deleteObject (fails : String → Bool) (store : List CloudObject)
    (key : String) : List CloudObject :=
  if fails key then store else store.filter (fun o => ¬ o.key = key)

/-- `CloudObjectStorage.shouldDeleteObject` (lines 432-456): fetch the
object, deserialize it, parse its timestamp; any failure yields an error
(`none`); otherwise report whether `timestamp.Before(cutoff)`. -/
def shouldDeleteObject (store : List CloudObject) (cutoff : Nat)
    (key : String) : Option Bool :=
  match getObject store key with
  | none => none
  | some none => none
  | some (some s) =>
    match parseTimestamp s.timestamp with
    | none => none
    | some t => some (decide (t < cutoff))

/-- The per-key loop of `CloudObjectStorage.cleanup` (lines 417-426): delete
a key exactly when `shouldDeleteObject` returns `(true, nil)`; fetch/parse
errors and delete errors are tolerated and never stop the loop. -/
def cleanupKeys (cutoff : Nat) (fails : String → Bool) :
    List String → List CloudObject → List CloudObject
  | [], store => store
  | k :: ks, store =>
    let store' :=
      if shouldDeleteObject store cutoff k = some true then
        deleteObject fails store k
      else store
    cleanupKeys cutoff fails ks store'

/-- `CloudObjectStorage.cleanup`: a no-op when `maxAge == 0`; otherwise
list all keys and run the deletion loop with cutoff `now - maxAge`. -/
def cloudCleanup (now maxAge : Nat) (fails : String → Bool)
    (store : List CloudObject) : List CloudObject :=
  if maxAge = 0 then store
  else cleanupKeys (now - maxAge) fails (store.map (·.key)) store

/-- The pure deletability test of one object under `cutoff`: fetch
succeeded, payload deserialized, timestamp parsed, and the timestamp is
strictly before the cutoff. -/
def objectExpired (cutoff : Nat) (o : CloudObject) : Bool :=
  match o.fetch with
  | some (some s) =>
    match parseTimestamp s.timestamp with
    | some t => decide (t < cutoff)
    | none => false
  | _ => false

/-- `CloudObjectStorage.Query` (lines 503-556): list all keys, fetch each
(skipping fetch failures), deserialize (skipping malformed payloads), then
the common filter/sort/limit pipeline. -/
def cloudQuery (optsIn : Option QueryOptions) (store : List CloudObject) :
    List GoSnapshot :=
  queryList optsIn (store.filterMap (fun o => o.fetch.bind id))

/-! ### Concrete example values used by evaluation theorems and witnesses -/

/-- A heap in which every runtime record reports one goroutine. -/
def exHeap : Heap :=
  ⟨fun _ => ⟨"go1.24.5", 1, 8, 8, 0⟩,
   fun _ => ⟨0, 0, 0, 0, 0, 0, 0⟩,
   fun _ => ⟨1⟩⟩

/-- `exHeap` after the caller mutates the shared runtime record
(`snapshot.Runtime.NumGoroutines = 2`). -/
def exHeapMut : Heap :=
  ⟨fun _ => ⟨"go1.24.5", 2, 8, 8, 0⟩,
   fun _ => ⟨0, 0, 0, 0, 0, 0, 0⟩,
   fun _ => ⟨1⟩⟩

/-- A heap whose runtime records carry Go's `math.NaN()` bit pattern
(`0x7FF8000000000001`) in `uptime_seconds`: `json.Marshal` fails on any
snapshot dereferencing into it. -/
def exHeapNaN : Heap :=
  ⟨fun _ => ⟨"go1.24.5", 1, 8, 8, 9221120237041090561⟩,
   fun _ => ⟨0, 0, 0, 0, 0, 0, 0⟩,
   fun _ => ⟨1⟩⟩

/-- A snapshot whose nested records live at heap address 0. -/
def exSnap0 : GoSnapshot := ⟨"2024-01-01T00:00:00Z", 0, 0, 0⟩

/-- Snapshot at time t1 (earliest). -/
def exSnap1 : GoSnapshot := ⟨"2024-01-01T00:00:01Z", 0, 0, 0⟩

/-- Snapshot at time t2. -/
def exSnap2 : GoSnapshot := ⟨"2024-01-01T00:00:02Z", 0, 0, 0⟩

/-- Snapshot at time t3 (latest). -/
def exSnap3 : GoSnapshot := ⟨"2024-01-01T00:00:03Z", 0, 0, 0⟩

/-! ## Claim C1 -/

/-- C1: the claim states that `BoundedMemoryStorage.StoreBatch` of `K` items
over `M` stored items with `M+K > N` always leaves exactly `N` items, the
last `N` inserted, also when `K > N`.  The code clamps `evictCount` to the
current length, so at the failing input `N = 2`, `M = 0`, `K = 3` nothing is
evicted, the whole batch is appended, and three snapshots remain — the
documented `maxSize` bound is exceeded. -/
theorem claim1_storebatch_overflow_bug :
    bmStoreBatch 2 [] [exSnap1, exSnap2, exSnap3]
        = [exSnap1, exSnap2, exSnap3]
      ∧ (bmStoreBatch 2 [] [exSnap1, exSnap2, exSnap3]).length = 3
      ∧ ¬ (bmStoreBatch 2 [] [exSnap1, exSnap2, exSnap3]).length = 2 := by
  refine ⟨rfl, rfl, ?_⟩
  decide

/-! ## Claim C3 -/

/-- C3: the claim (like the doc comment on `QueryOptions.OrderBy`) states
that a descriptor whose order field is left at its default sorts newest
first.  But `OrderByTimeAsc` is the first `iota` constant, so the Go zero
value of `OrderBy` *is* `OrderByTimeAsc`: a defaulted descriptor (or a nil
one) sorts oldest first.  Evaluated at two stored snapshots with t1 < t2,
`Query` returns `[t1, t2]`, not the claimed `[t2, t1]`. -/
theorem claim3_default_order_ascending_bug :
    zeroQueryOptions.orderBy = orderByTimeAsc
      ∧ bmQuery (some zeroQueryOptions) [exSnap2, exSnap1]
          = [exSnap1, exSnap2]
      ∧ bmQuery none [exSnap2, exSnap1] = [exSnap1, exSnap2]
      ∧ ¬ bmQuery (some zeroQueryOptions) [exSnap2, exSnap1]
          = [exSnap2, exSnap1] := by
  refine ⟨rfl, by decide, by decide, by decide⟩

/-! ## Claim C6 -/

/-- The batch insert loop, run to completion: it aborts iff some inserted
row trips the execution-error oracle, and otherwise accumulates exactly the
rows of the serializable snapshots, in order. -/
theorem dbInsertLoop_eq (h : Heap) (execErr : DBRow → Bool)
    (snaps : List GoSnapshot) :
    ∀ acc, dbInsertLoop h execErr snaps acc
      = if (snaps.filterMap (dbRowOf h)).any execErr then none
        else some (acc ++ snaps.filterMap (dbRowOf h)) := by
  induction snaps with
  | nil => intro acc; simp [dbInsertLoop]
  | cons s rest ih =>
    intro acc
    cases hp : parseTimestamp s.timestamp with
    | none =>
      simp only [dbInsertLoop, hp, List.filterMap_cons, dbRowOf]
      simp [ih]
    | some ts =>
      cases hj : snapshotToJSON h s with
      | none =>
        simp only [dbInsertLoop, hp, hj, List.filterMap_cons, dbRowOf]
        simp [ih]
      | some data =>
        simp only [dbInsertLoop, hp, hj, List.filterMap_cons, dbRowOf]
        by_cases he : execErr (ts, data)
        · simp [he]
        · simp [he, ih]

/-- C6: `DatabaseStorage.StoreBatch` skips every snapshot whose timestamp
fails to parse or whose JSON serialization fails — both without aborting
the batch — while a database execution error on any insert aborts the whole
batch: the deferred rollback leaves the table unchanged.  With no execution
error the transaction commits all surviving rows in order.  A snapshot is
skipped exactly when its timestamp fails to parse or `ToJSON` fails, and
the serialization failure is reachable: `json.Marshal` rejects a NaN in the
snapshot's `float64` fields, as the concrete `exHeapNaN` conjunct shows. -/
theorem claim6_db_storebatch_transactional (h : Heap)
    (execErr : DBRow → Bool) (table : List DBRow)
    (snaps : List GoSnapshot) :
    dbStoreBatch h execErr table snaps
      = (if (snaps.filterMap (dbRowOf h)).any execErr then (table, false)
         else (table ++ snaps.filterMap (dbRowOf h), true))
      ∧ (∀ s, dbRowOf h s = none
          ↔ (parseTimestamp s.timestamp = none ∨ snapshotToJSON h s = none))
      ∧ snapshotToJSON exHeapNaN exSnap0 = none := by
  refine ⟨?_, ?_, by decide⟩
  · simp only [dbStoreBatch, dbInsertLoop_eq]
    by_cases hany : (snaps.filterMap (dbRowOf h)).any execErr
    · simp [hany]
    · simp [hany]
  · intro s
    unfold dbRowOf
    cases hp : parseTimestamp s.timestamp with
    | none => simp
    | some ts =>
      cases hj : snapshotToJSON h s with
      | none => simp [hj]
      | some data => simp [hj]

/-! ## Claim C9 -/

/-- `keepSnap` under the zero descriptor is exactly timestamp
parseability. -/
theorem keepSnap_zero (s : GoSnapshot) :
    keepSnap zeroQueryOptions s = parseable s := by
  unfold keepSnap parseable zeroQueryOptions
  cases parseTimestamp s.timestamp <;> simp

/-- The shared query body on a nil descriptor: every parseable stored
snapshot is returned (no filtering, no truncation), up to the sort's
reordering. -/
theorem queryList_none_perm (snaps : List GoSnapshot) :
    (queryList none snaps).Perm (snaps.filter parseable) := by
  unfold queryList applyLimit sortSnapshots
  simp only [Option.getD_none, Option.getD]
  have hfilter :
      snaps.filter (keepSnap zeroQueryOptions) = snaps.filter parseable :=
    List.filter_congr fun s _ => keepSnap_zero s
  rw [if_neg (by simp [zeroQueryOptions]), hfilter,
    if_pos (show zeroQueryOptions.orderBy = orderByTimeAsc from rfl)]
  exact List.perm_insertionSort snapLE _

/-- C9: for all four backends, a nil query descriptor is handled by
substituting the zero-valued `QueryOptions{}` — same result, no error —
and the zero descriptor applies no time filter and no limit, so the result
is exactly the parseable stored snapshots (in the zero-value order). -/
theorem claim9_nil_query_default (snaps : List GoSnapshot)
    (dir : List (Option GoSnapshot)) (store : List CloudObject) :
    bmQuery none snaps = bmQuery (some zeroQueryOptions) snaps
      ∧ memQuery none snaps = memQuery (some zeroQueryOptions) snaps
      ∧ fileQuery none dir = fileQuery (some zeroQueryOptions) dir
      ∧ cloudQuery none store = cloudQuery (some zeroQueryOptions) store
      ∧ (bmQuery none snaps).Perm (snaps.filter parseable)
      ∧ (memQuery none snaps).Perm (snaps.filter parseable)
      ∧ (fileQuery none dir).Perm ((dir.filterMap id).filter parseable)
      ∧ (cloudQuery none store).Perm
          ((store.filterMap (fun o => o.fetch.bind id)).filter parseable) :=
  ⟨rfl, rfl, rfl, rfl, queryList_none_perm snaps, queryList_none_perm snaps,
    queryList_none_perm _, queryList_none_perm _⟩

/-! ## Claim C2 -/

/-- C2 counterexample: `BoundedMemoryStorage.Store` copies only the
top-level record (`snapshotCopy := *snapshot`), so the nested
`Runtime`/`Memory`/`Goroutines` records stay shared with the caller.  Store
a snapshot while its runtime record reports 1 goroutine (`exHeap`), let the
caller then mutate that shared record (`exHeapMut`): a subsequent `Query`
returns the snapshot with the mutated nested values, not the values it had
when `Store` was called. -/
theorem claim2_shallow_copy_counterexample :
    ((bmQuery none (bmStore (newBoundedMemoryStorage 1000) [] exSnap0)).map
        (observe exHeapMut))
      ≠ [observe exHeap exSnap0] := by
  decide

/-- C2 amended: after `Store`, the persisted top-level record is a value
copy fixed at call time — the queried timestamp (and the nested-record
identities) no longer depend on anything the caller does — but the nested
runtime, memory and goroutine records remain shared, so a `Query` observed
under the current heap `h` reports `h`'s contents at the snapshot's
addresses, i.e. caller mutations through the shared nested records are
visible in persisted state.  (The file, database and object backends
serialize at write time and are not affected.) -/
theorem claim2_store_copies_top_level_only (N : Nat) (s : GoSnapshot)
    (h : Heap) (hN : 0 < N) (hp : parseable s = true) :
    (bmQuery none (bmStore N [] s)).map (observe h)
      = [⟨s.timestamp, h.runtimes s.runtime, h.memories s.memory,
          h.goroutineInfos s.goroutines⟩] := by
  have hstore : bmStore N [] s = [s] := by
    unfold bmStore
    rw [if_neg (by simp; omega)]
    rfl
  rw [hstore]
  show (queryList none [s]).map (observe h) = _
  unfold queryList applyLimit sortSnapshots
  simp only [Option.getD_none]
  have hfil : List.filter (keepSnap zeroQueryOptions) [s] = [s] := by
    simp [keepSnap_zero, hp]
  rw [if_neg (by simp [zeroQueryOptions]), hfil,
    if_pos (show zeroQueryOptions.orderBy = orderByTimeAsc from rfl)]
  simp [List.insertionSort, List.orderedInsert, observe]

/-- Witness for C2's amended theorem at a concrete input. -/
theorem claim2_witness :
    0 < 2 ∧ parseable exSnap0 = true
      ∧ (bmQuery none (bmStore 2 [] exSnap0)).map (observe exHeapMut)
          = [⟨exSnap0.timestamp, exHeapMut.runtimes exSnap0.runtime,
              exHeapMut.memories exSnap0.memory,
              exHeapMut.goroutineInfos exSnap0.goroutines⟩] :=
  ⟨by decide, by decide,
    claim2_store_copies_top_level_only 2 exSnap0 exHeapMut (by decide)
      (by decide)⟩

/-! ## Claim C5 -/

/-- Folding `BoundedMemoryStorage.Store` over a batch, starting from any
state within capacity, retains exactly the last `N` of the old-then-new
sequence. -/
theorem bmStoreAll_eq_drop (N : Nat) (hN : 0 < N) :
    ∀ (batch st : List GoSnapshot), st.length ≤ N →
      bmStoreAll N st batch
        = (st ++ batch).drop (st.length + batch.length - N) := by
  intro batch
  induction batch with
  | nil =>
    intro st hst
    simp [bmStoreAll, Nat.sub_eq_zero_of_le hst]
  | cons x l ih =>
    intro st hst
    have hstep : bmStoreAll N st (x :: l) = bmStoreAll N (bmStore N st x) l :=
      rfl
    rw [hstep]
    by_cases hlt : st.length < N
    · have hx : bmStore N st x = st ++ [x] := by
        unfold bmStore
        rw [if_neg (by omega)]
      rw [hx, ih (st ++ [x]) (by simp; omega)]
      have harr : (st ++ [x]) ++ l = st ++ x :: l := by simp
      have hidx : (st ++ [x]).length + l.length - N
          = st.length + (x :: l).length - N := by
        simp; omega
      rw [harr, hidx]
    · have heq : st.length = N := by omega
      have hx : bmStore N st x = st.drop 1 ++ [x] := by
        unfold bmStore
        rw [if_pos (by omega)]
      rw [hx, ih (st.drop 1 ++ [x]) (by simp; omega)]
      cases st with
      | nil => simp at heq; omega
      | cons a t =>
        have hlen : (t ++ [x]).length + l.length - N = l.length := by
          simp at heq ⊢; omega
        have hlen2 : (a :: t).length + (x :: l).length - N
            = l.length + 1 := by
          simp at heq ⊢; omega
        simp only [List.drop_one, List.tail_cons, hlen, hlen2]
        rw [show (a :: t) ++ x :: l = a :: (t ++ x :: l) from rfl,
          List.drop_succ_cons,
          show (t ++ [x]) ++ l = t ++ x :: l by simp]

/-- C5: with `max_size = N`, storing `N+1` distinct snapshots one by one
leaves exactly `N` present — the tail of the insertion sequence — and the
first-inserted snapshot is absent.  The concrete scenario: `max_size = 2`,
snapshots at t1 < t2 < t3, `Query(descending, limit 0)` returns
`[t3, t2]`. -/
theorem claim5_store_eviction (N : Nat) (s : GoSnapshot)
    (rest : List GoSnapshot) (hN : 0 < N) (hlen : rest.length = N)
    (hnd : (s :: rest).Nodup) :
    bmStoreAll N [] (s :: rest) = rest
      ∧ (bmStoreAll N [] (s :: rest)).length = N
      ∧ s ∉ bmStoreAll N [] (s :: rest)
      ∧ bmQuery (some ⟨none, none, 0, orderByTimeDesc⟩)
          (bmStoreAll 2 [] [exSnap1, exSnap2, exSnap3])
        = [exSnap3, exSnap2] := by
  have hall : bmStoreAll N [] (s :: rest) = rest := by
    rw [bmStoreAll_eq_drop N hN (s :: rest) [] (by simp)]
    simp [hlen]
  refine ⟨hall, by rw [hall, hlen], ?_, by decide⟩
  rw [hall]
  exact (List.nodup_cons.mp hnd).1

/-- Witness for C5 at a concrete input. -/
theorem claim5_witness :
    0 < 2 ∧ ([exSnap2, exSnap3] : List GoSnapshot).length = 2
      ∧ ([exSnap1, exSnap2, exSnap3] : List GoSnapshot).Nodup
      ∧ (bmStoreAll 2 [] [exSnap1, exSnap2, exSnap3] = [exSnap2, exSnap3]
          ∧ (bmStoreAll 2 [] [exSnap1, exSnap2, exSnap3]).length = 2
          ∧ exSnap1 ∉ bmStoreAll 2 [] [exSnap1, exSnap2, exSnap3]
          ∧ bmQuery (some ⟨none, none, 0, orderByTimeDesc⟩)
              (bmStoreAll 2 [] [exSnap1, exSnap2, exSnap3])
            = [exSnap3, exSnap2]) :=
  ⟨by decide, by decide, by decide,
    claim5_store_eviction 2 exSnap1 [exSnap2, exSnap3] (by decide) (by decide)
      (by decide)⟩

/-! ## Claim C7 -/

/-- Anything the shared query body returns was stored and passed the
filter. -/
theorem mem_of_mem_queryList {optsIn : Option QueryOptions}
    {snaps : List GoSnapshot} {s : GoSnapshot}
    (h : s ∈ queryList optsIn snaps) :
    s ∈ snaps ∧ keepSnap (optsIn.getD zeroQueryOptions) s = true := by
  unfold queryList applyLimit at h
  have h1 : s ∈ sortSnapshots (optsIn.getD zeroQueryOptions).orderBy
      (snaps.filter (keepSnap (optsIn.getD zeroQueryOptions))) := by
    split at h
    · exact List.mem_of_mem_take h
    · exact h
  have h2 : s ∈ snaps.filter (keepSnap (optsIn.getD zeroQueryOptions)) := by
    unfold sortSnapshots at h1
    split at h1
    · exact (List.mem_insertionSort snapLE).mp h1
    · exact (List.mem_insertionSort snapGE).mp h1
  exact ⟨(List.mem_filter.mp h2).1, (List.mem_filter.mp h2).2⟩

/-- With limit 0 there is no truncation: every stored snapshot passing the
filter appears in the result. -/
theorem mem_queryList_of {optsIn : Option QueryOptions}
    {snaps : List GoSnapshot} {s : GoSnapshot}
    (h0 : (optsIn.getD zeroQueryOptions).limit = 0)
    (hmem : s ∈ snaps)
    (hk : keepSnap (optsIn.getD zeroQueryOptions) s = true) :
    s ∈ queryList optsIn snaps := by
  unfold queryList applyLimit
  rw [if_neg (by rw [h0]; simp)]
  unfold sortSnapshots
  split
  · exact (List.mem_insertionSort snapLE).mpr (List.mem_filter.mpr ⟨hmem, hk⟩)
  · exact (List.mem_insertionSort snapGE).mpr (List.mem_filter.mpr ⟨hmem, hk⟩)

/-- With both bounds set, the filter admits a snapshot exactly when its
timestamp parses to a time in the inclusive interval. -/
theorem keepSnap_bounds {opts : QueryOptions} {T1 T2 : Nat}
    (hs : opts.startTime = some T1) (he : opts.endTime = some T2)
    (s : GoSnapshot) :
    keepSnap opts s = true
      ↔ ∃ t, parseTimestamp s.timestamp = some t ∧ T1 ≤ t ∧ t ≤ T2 := by
  unfold keepSnap
  rw [hs, he]
  cases hp : parseTimestamp s.timestamp <;> simp

/-- Anything the SQL SELECT returns is a stored row passing its WHERE
clause. -/
theorem mem_of_mem_dbQueryRows {optsIn : Option QueryOptions}
    {table : List DBRow} {r : DBRow} (h : r ∈ dbQueryRows optsIn table) :
    r ∈ table ∧ dbQueryWhere (optsIn.getD zeroQueryOptions) r = true := by
  unfold dbQueryRows applyRowLimit at h
  have h1 : r ∈ sortRows (optsIn.getD zeroQueryOptions).orderBy
      (table.filter (dbQueryWhere (optsIn.getD zeroQueryOptions))) := by
    split at h
    · exact List.mem_of_mem_take h
    · exact h
  have h2 : r ∈ table.filter (dbQueryWhere (optsIn.getD zeroQueryOptions)) := by
    unfold sortRows at h1
    split at h1
    · exact (List.mem_insertionSort rowLE).mp h1
    · exact (List.mem_insertionSort rowGE).mp h1
  exact ⟨(List.mem_filter.mp h2).1, (List.mem_filter.mp h2).2⟩

/-- With no LIMIT clause (`opts.Limit = 0`) every stored row passing the
WHERE clause is returned by the SELECT. -/
theorem mem_dbQueryRows_of {optsIn : Option QueryOptions}
    {table : List DBRow} {r : DBRow}
    (h0 : (optsIn.getD zeroQueryOptions).limit = 0)
    (hmem : r ∈ table)
    (hw : dbQueryWhere (optsIn.getD zeroQueryOptions) r = true) :
    r ∈ dbQueryRows optsIn table := by
  unfold dbQueryRows applyRowLimit
  rw [if_neg (by rw [h0]; simp)]
  unfold sortRows
  split
  · exact (List.mem_insertionSort rowLE).mpr (List.mem_filter.mpr ⟨hmem, hw⟩)
  · exact (List.mem_insertionSort rowGE).mpr (List.mem_filter.mpr ⟨hmem, hw⟩)

/-- With both bounds set, the WHERE clause admits a row exactly when its
`timestamp` column is in the inclusive interval. -/
theorem dbQueryWhere_bounds {opts : QueryOptions} {T1 T2 : Nat}
    (hs : opts.startTime = some T1) (he : opts.endTime = some T2)
    (r : DBRow) :
    dbQueryWhere opts r = true ↔ T1 ≤ r.1 ∧ r.1 ≤ T2 := by
  unfold dbQueryWhere
  rw [hs, he]
  simp

/-- Every row `Store`/`StoreBatch` writes is consistent: its `timestamp`
column is the parse of its payload's timestamp string. -/
theorem dbRowOf_consistent (h : Heap) (s : GoSnapshot) (r : DBRow)
    (hr : dbRowOf h s = some r) :
    parseTimestamp r.2.timestamp = some r.1 := by
  unfold dbRowOf at hr
  cases hp : parseTimestamp s.timestamp with
  | none => rw [hp] at hr; exact absurd hr (by simp)
  | some ts =>
    rw [hp] at hr
    cases hj : snapshotToJSON h s with
    | none => rw [hj] at hr; exact absurd hr (by simp)
    | some data =>
      rw [hj] at hr
      have hdata : data = observe h s := by
        unfold snapshotToJSON at hj
        split at hj
        · exact absurd hj (by simp)
        · simpa using hj.symm
      have hreq : r = (ts, data) := by simpa using hr.symm
      subst hreq
      rw [hdata]
      simpa [observe] using hp

/-- C7: for every backend — bounded-memory, plain memory, file, cloud
object, and database — `Query` with `start_time = T1` and `end_time = T2`
returns only snapshots whose parsed timestamp `t` satisfies `T1 ≤ t ≤ T2`,
both bounds inclusive (with limit 0, every stored snapshot with `t = T1`
or `t = T2` — indeed any `t` in the interval — is returned); a start after
the end yields the empty result.  For the database backend the WHERE
clause bounds the indexed `timestamp` column, which for every row this
backend writes equals the parse of the payload's timestamp. -/
theorem claim7_query_time_bounds (opts : QueryOptions) (T1 T2 : Nat)
    (snaps : List GoSnapshot) (dir : List (Option GoSnapshot))
    (store : List CloudObject) (table : List DBRow)
    (hs : opts.startTime = some T1) (he : opts.endTime = some T2) :
    (∀ s ∈ bmQuery (some opts) snaps,
        ∃ t, parseTimestamp s.timestamp = some t ∧ T1 ≤ t ∧ t ≤ T2)
      ∧ (opts.limit = 0 → ∀ s ∈ snaps, ∀ t,
          parseTimestamp s.timestamp = some t → T1 ≤ t → t ≤ T2 →
            s ∈ bmQuery (some opts) snaps)
      ∧ (T2 < T1 → bmQuery (some opts) snaps = [])
      ∧ (∀ s ∈ fileQuery (some opts) dir,
          ∃ t, parseTimestamp s.timestamp = some t ∧ T1 ≤ t ∧ t ≤ T2)
      ∧ (opts.limit = 0 → ∀ os ∈ dir, ∀ s, os = some s → ∀ t,
          parseTimestamp s.timestamp = some t → T1 ≤ t → t ≤ T2 →
            s ∈ fileQuery (some opts) dir)
      ∧ (T2 < T1 → fileQuery (some opts) dir = [])
      ∧ (∀ s ∈ memQuery (some opts) snaps,
          ∃ t, parseTimestamp s.timestamp = some t ∧ T1 ≤ t ∧ t ≤ T2)
      ∧ (opts.limit = 0 → ∀ s ∈ snaps, ∀ t,
          parseTimestamp s.timestamp = some t → T1 ≤ t → t ≤ T2 →
            s ∈ memQuery (some opts) snaps)
      ∧ (T2 < T1 → memQuery (some opts) snaps = [])
      ∧ (∀ s ∈ cloudQuery (some opts) store,
          ∃ t, parseTimestamp s.timestamp = some t ∧ T1 ≤ t ∧ t ≤ T2)
      ∧ (opts.limit = 0 → ∀ o ∈ store, ∀ s, o.fetch = some (some s) → ∀ t,
          parseTimestamp s.timestamp = some t → T1 ≤ t → t ≤ T2 →
            s ∈ cloudQuery (some opts) store)
      ∧ (T2 < T1 → cloudQuery (some opts) store = [])
      ∧ (∀ r ∈ dbQueryRows (some opts) table, T1 ≤ r.1 ∧ r.1 ≤ T2)
      ∧ ((∀ r ∈ table, parseTimestamp r.2.timestamp = some r.1) →
          ∀ v ∈ dbQuery (some opts) table,
            ∃ t, parseTimestamp v.timestamp = some t ∧ T1 ≤ t ∧ t ≤ T2)
      ∧ (opts.limit = 0 → ∀ r ∈ table, T1 ≤ r.1 → r.1 ≤ T2 →
          r.2 ∈ dbQuery (some opts) table)
      ∧ (T2 < T1 → dbQuery (some opts) table = []) := by
  have hempty : T2 < T1 → ∀ l : List GoSnapshot,
      queryList (some opts) l = [] := by
    intro hlt l
    unfold queryList
    have hf : l.filter (keepSnap ((some opts).getD zeroQueryOptions)) = [] := by
      rw [List.filter_eq_nil_iff]
      intro a ha hk
      obtain ⟨t, _, hab, hbb⟩ := (keepSnap_bounds hs he a).mp hk
      omega
    rw [hf]
    simp [sortSnapshots, applyLimit, List.insertionSort]
  have honly : ∀ l : List GoSnapshot, ∀ s ∈ queryList (some opts) l,
      ∃ t, parseTimestamp s.timestamp = some t ∧ T1 ≤ t ∧ t ≤ T2 :=
    fun l s hsm =>
      (keepSnap_bounds hs he s).mp (mem_of_mem_queryList hsm).2
  have hrows : T2 < T1 → dbQueryRows (some opts) table = [] := by
    intro hlt
    unfold dbQueryRows
    have hf : table.filter
        (dbQueryWhere ((some opts).getD zeroQueryOptions)) = [] := by
      rw [List.filter_eq_nil_iff]
      intro r hrm hw
      obtain ⟨h1, h2⟩ := (dbQueryWhere_bounds hs he r).mp hw
      omega
    rw [hf]
    simp [sortRows, applyRowLimit, List.insertionSort]
  refine ⟨honly snaps, ?_, fun hlt => hempty hlt snaps,
    honly (dir.filterMap id), ?_, fun hlt => hempty hlt (dir.filterMap id),
    honly snaps, ?_, fun hlt => hempty hlt snaps,
    ?_, ?_, ?_,
    ?_, ?_, ?_, fun hlt => by unfold dbQuery; rw [hrows hlt]; rfl⟩
  · intro h0 s hsm t hpt h1 h2
    exact mem_queryList_of h0 hsm
      ((keepSnap_bounds hs he s).mpr ⟨t, hpt, h1, h2⟩)
  · intro h0 os hos s hsome t hpt h1 h2
    have hmem : s ∈ dir.filterMap id :=
      List.mem_filterMap.mpr ⟨os, hos, by rw [hsome]; rfl⟩
    exact mem_queryList_of h0 hmem
      ((keepSnap_bounds hs he s).mpr ⟨t, hpt, h1, h2⟩)
  · intro h0 s hsm t hpt h1 h2
    exact mem_queryList_of h0 hsm
      ((keepSnap_bounds hs he s).mpr ⟨t, hpt, h1, h2⟩)
  · show ∀ s ∈ queryList (some opts)
        (store.filterMap (fun o => o.fetch.bind id)),
      ∃ t, parseTimestamp s.timestamp = some t ∧ T1 ≤ t ∧ t ≤ T2
    exact honly _
  · show opts.limit = 0 → ∀ o ∈ store, ∀ s, o.fetch = some (some s) → ∀ t,
      parseTimestamp s.timestamp = some t → T1 ≤ t → t ≤ T2 →
        s ∈ queryList (some opts)
          (store.filterMap (fun o => o.fetch.bind id))
    intro h0 o ho s hf t hpt h1 h2
    have hmem : s ∈ store.filterMap (fun o => o.fetch.bind id) :=
      List.mem_filterMap.mpr ⟨o, ho, by rw [hf]; rfl⟩
    exact mem_queryList_of h0 hmem
      ((keepSnap_bounds hs he s).mpr ⟨t, hpt, h1, h2⟩)
  · show T2 < T1 → queryList (some opts)
        (store.filterMap (fun o => o.fetch.bind id)) = []
    exact fun hlt => hempty hlt _
  · intro r hrm
    exact (dbQueryWhere_bounds hs he r).mp (mem_of_mem_dbQueryRows hrm).2
  · intro hcons v hv
    obtain ⟨r, hrm, hrv⟩ := List.mem_map.mp hv
    obtain ⟨hrt, hrw⟩ := mem_of_mem_dbQueryRows hrm
    obtain ⟨h1, h2⟩ := (dbQueryWhere_bounds hs he r).mp hrw
    exact ⟨r.1, by rw [← hrv]; exact hcons r hrt, h1, h2⟩
  · intro h0 r hrm h1 h2
    exact List.mem_map.mpr ⟨r,
      mem_dbQueryRows_of h0 hrm
        ((dbQueryWhere_bounds hs he r).mpr ⟨h1, h2⟩), rfl⟩

/-- Witness for C7 at a concrete input: one stored snapshot per backend
kind (memory, file, cloud, database). -/
theorem claim7_witness :
    (⟨some 1, some 2, 0, 1⟩ : QueryOptions).startTime = some 1
      ∧ (⟨some 1, some 2, 0, 1⟩ : QueryOptions).endTime = some 2
      ∧ ((∀ s ∈ bmQuery (some ⟨some 1, some 2, 0, 1⟩) [exSnap1],
            ∃ t, parseTimestamp s.timestamp = some t ∧ 1 ≤ t ∧ t ≤ 2)
          ∧ ((⟨some 1, some 2, 0, 1⟩ : QueryOptions).limit = 0 →
              ∀ s ∈ [exSnap1], ∀ t,
                parseTimestamp s.timestamp = some t → 1 ≤ t → t ≤ 2 →
                  s ∈ bmQuery (some ⟨some 1, some 2, 0, 1⟩) [exSnap1])
          ∧ (2 < 1 → bmQuery (some ⟨some 1, some 2, 0, 1⟩) [exSnap1] = [])
          ∧ (∀ s ∈ fileQuery (some ⟨some 1, some 2, 0, 1⟩) [some exSnap1],
              ∃ t, parseTimestamp s.timestamp = some t ∧ 1 ≤ t ∧ t ≤ 2)
          ∧ ((⟨some 1, some 2, 0, 1⟩ : QueryOptions).limit = 0 →
              ∀ os ∈ [some exSnap1], ∀ s, os = some s → ∀ t,
                parseTimestamp s.timestamp = some t → 1 ≤ t → t ≤ 2 →
                  s ∈ fileQuery (some ⟨some 1, some 2, 0, 1⟩) [some exSnap1])
          ∧ (2 < 1 →
              fileQuery (some ⟨some 1, some 2, 0, 1⟩) [some exSnap1] = [])
          ∧ (∀ s ∈ memQuery (some ⟨some 1, some 2, 0, 1⟩) [exSnap1],
              ∃ t, parseTimestamp s.timestamp = some t ∧ 1 ≤ t ∧ t ≤ 2)
          ∧ ((⟨some 1, some 2, 0, 1⟩ : QueryOptions).limit = 0 →
              ∀ s ∈ [exSnap1], ∀ t,
                parseTimestamp s.timestamp = some t → 1 ≤ t → t ≤ 2 →
                  s ∈ memQuery (some ⟨some 1, some 2, 0, 1⟩) [exSnap1])
          ∧ (2 < 1 → memQuery (some ⟨some 1, some 2, 0, 1⟩) [exSnap1] = [])
          ∧ (∀ s ∈ cloudQuery (some ⟨some 1, some 2, 0, 1⟩)
                [⟨"k1", some (some exSnap1)⟩],
              ∃ t, parseTimestamp s.timestamp = some t ∧ 1 ≤ t ∧ t ≤ 2)
          ∧ ((⟨some 1, some 2, 0, 1⟩ : QueryOptions).limit = 0 →
              ∀ o ∈ [(⟨"k1", some (some exSnap1)⟩ : CloudObject)], ∀ s,
                o.fetch = some (some s) → ∀ t,
                parseTimestamp s.timestamp = some t → 1 ≤ t → t ≤ 2 →
                  s ∈ cloudQuery (some ⟨some 1, some 2, 0, 1⟩)
                    [⟨"k1", some (some exSnap1)⟩])
          ∧ (2 < 1 → cloudQuery (some ⟨some 1, some 2, 0, 1⟩)
                [⟨"k1", some (some exSnap1)⟩] = [])
          ∧ (∀ r ∈ dbQueryRows (some ⟨some 1, some 2, 0, 1⟩)
                [(1, observe exHeap exSnap1)], 1 ≤ r.1 ∧ r.1 ≤ 2)
          ∧ ((∀ r ∈ [((1 : Nat), observe exHeap exSnap1)],
                parseTimestamp r.2.timestamp = some r.1) →
              ∀ v ∈ dbQuery (some ⟨some 1, some 2, 0, 1⟩)
                  [(1, observe exHeap exSnap1)],
                ∃ t, parseTimestamp v.timestamp = some t ∧ 1 ≤ t ∧ t ≤ 2)
          ∧ ((⟨some 1, some 2, 0, 1⟩ : QueryOptions).limit = 0 →
              ∀ r ∈ [((1 : Nat), observe exHeap exSnap1)],
                1 ≤ r.1 → r.1 ≤ 2 →
                  r.2 ∈ dbQuery (some ⟨some 1, some 2, 0, 1⟩)
                    [(1, observe exHeap exSnap1)])
          ∧ (2 < 1 → dbQuery (some ⟨some 1, some 2, 0, 1⟩)
                [(1, observe exHeap exSnap1)] = [])) :=
  ⟨rfl, rfl,
    claim7_query_time_bounds ⟨some 1, some 2, 0, 1⟩ 1 2 [exSnap1]
      [some exSnap1] [⟨"k1", some (some exSnap1)⟩]
      [(1, observe exHeap exSnap1)] rfl rfl⟩

/-! ## Claim C10 -/

/-- C10: `NewDatabaseStorage` creates (only) the configured table, while
`Store`, `StoreBatch` and `Query` address the literal table name
`inspectd_snapshots` baked into their SQL strings.  With any non-default,
non-empty configured `TableName`, the created table and the table targeted
by every read and write differ: the targeted table does not even exist in
the freshly bootstrapped database, so each modelled write and read reports
a database error. -/
theorem claim10_table_name_mismatch (c : DatabaseStorageConfig)
    (h1 : ¬ c.tableName = "") (h2 : ¬ c.tableName = "inspectd_snapshots") :
    effectiveTableName c = c.tableName
      ∧ newDatabaseStorageTables c = [(c.tableName, [])]
      ∧ (newDatabaseStorageTables c).lookup "inspectd_snapshots" = none
      ∧ (∀ row, dbStoreTables (newDatabaseStorageTables c) row = none)
      ∧ dbQueryTables (newDatabaseStorageTables c) = none
      ∧ dbInsertSQL "postgres"
          = "INSERT INTO inspectd_snapshots (timestamp, data) VALUES ($1, $2::jsonb)"
      ∧ dbInsertSQL "mysql"
          = "INSERT INTO inspectd_snapshots (timestamp, data) VALUES (?, ?)"
      ∧ dbQueryBaseSQL = "SELECT data FROM inspectd_snapshots WHERE 1=1" := by
  have heff : effectiveTableName c = c.tableName := by
    unfold effectiveTableName
    rw [if_neg h1]
  have hnew : newDatabaseStorageTables c = [(c.tableName, [])] := by
    unfold newDatabaseStorageTables createTableIfAbsent
    rw [heff]
    simp [List.lookup]
  have hbeq : (("inspectd_snapshots" : String) == c.tableName) = false := by
    rw [beq_eq_false_iff_ne]
    exact fun h => h2 h.symm
  have hlook : (newDatabaseStorageTables c).lookup "inspectd_snapshots"
      = none := by
    rw [hnew]
    simp [List.lookup, hbeq]
  refine ⟨heff, hnew, hlook, ?_, ?_, rfl, rfl, rfl⟩
  · intro row
    unfold dbStoreTables
    rw [hlook]
  · exact hlook

/-- Witness for C10 at a concrete configuration. -/
theorem claim10_witness :
    ¬ ("custom_metrics" : String) = ""
      ∧ ¬ ("custom_metrics" : String) = "inspectd_snapshots"
      ∧ (effectiveTableName ⟨"postgres", "dsn", "custom_metrics", 10⟩
            = "custom_metrics"
          ∧ newDatabaseStorageTables ⟨"postgres", "dsn", "custom_metrics", 10⟩
            = [("custom_metrics", [])]
          ∧ (newDatabaseStorageTables
              ⟨"postgres", "dsn", "custom_metrics", 10⟩).lookup
                "inspectd_snapshots" = none
          ∧ (∀ row, dbStoreTables
              (newDatabaseStorageTables
                ⟨"postgres", "dsn", "custom_metrics", 10⟩) row = none)
          ∧ dbQueryTables
              (newDatabaseStorageTables
                ⟨"postgres", "dsn", "custom_metrics", 10⟩) = none
          ∧ dbInsertSQL "postgres"
            = "INSERT INTO inspectd_snapshots (timestamp, data) VALUES ($1, $2::jsonb)"
          ∧ dbInsertSQL "mysql"
            = "INSERT INTO inspectd_snapshots (timestamp, data) VALUES (?, ?)"
          ∧ dbQueryBaseSQL = "SELECT data FROM inspectd_snapshots WHERE 1=1") :=
  ⟨by decide, by decide,
    claim10_table_name_mismatch ⟨"postgres", "dsn", "custom_metrics", 10⟩
      (by decide) (by decide)⟩

/-! ## Claim C8 -/

/-- Survival of one object across a cleanup pass: an object is removed
exactly when it is deletable (`objectExpired`: fetch succeeded, payload
deserialized, timestamp parsed, timestamp before the cutoff) *and* its
`DeleteObject` call succeeds. -/
def surviveCloud (cutoff : Nat) (fails : String → Bool) (o : CloudObject) :
    Bool :=
  !(objectExpired cutoff o && !fails o.key)

/-- With a matching object present, `shouldDeleteObject` reports `true`
exactly when that object is expired. -/
theorem shouldDeleteObject_of_find {st : List CloudObject} {k : String}
    {o0 : CloudObject} (cutoff : Nat)
    (hfind : st.find? (fun o => o.key = k) = some o0) :
    (shouldDeleteObject st cutoff k = some true
      ↔ objectExpired cutoff o0 = true) := by
  unfold shouldDeleteObject getObject objectExpired
  rw [hfind]
  cases hf : o0.fetch with
  | none => simp [hf]
  | some os =>
    cases os with
    | none => simp [hf]
    | some s =>
      cases hp : parseTimestamp s.timestamp with
      | none => simp [hf, hp]
      | some t => simp [hf, hp]

/-- The cleanup loop over a duplicate-free key list on a duplicate-free
bucket filters each listed object by its own survival predicate; unlisted
objects are untouched. -/
theorem cleanupKeys_filter (cutoff : Nat) (fails : String → Bool) :
    ∀ (ks : List String) (st : List CloudObject),
      (st.map (fun o => o.key)).Nodup → ks.Nodup →
      cleanupKeys cutoff fails ks st
        = st.filter (fun o =>
            if o.key ∈ ks then surviveCloud cutoff fails o else true) := by
  intro ks
  induction ks with
  | nil =>
    intro st _ _
    simp [cleanupKeys]
  | cons k ks ih =>
    intro st hst hks
    have hknotin : k ∉ ks := (List.nodup_cons.mp hks).1
    have hks' : ks.Nodup := (List.nodup_cons.mp hks).2
    rw [show cleanupKeys cutoff fails (k :: ks) st
        = cleanupKeys cutoff fails ks
            (if shouldDeleteObject st cutoff k = some true then
              deleteObject fails st k
            else st) from rfl]
    cases hfind : st.find? (fun o => o.key = k) with
    | none =>
      have hne : ∀ o ∈ st, ¬ o.key = k := by
        intro o ho
        have := List.find?_eq_none.mp hfind o ho
        simpa using this
      have hsd : shouldDeleteObject st cutoff k = none := by
        unfold shouldDeleteObject getObject
        rw [hfind]
      rw [if_neg (by rw [hsd]; simp), ih st hst hks']
      refine List.filter_congr fun o ho => ?_
      exact if_congr (by simp [List.mem_cons, hne o ho]) rfl rfl
    | some o0 =>
      have ho0mem : o0 ∈ st := List.mem_of_find?_eq_some hfind
      have ho0key : o0.key = k := by
        have := List.find?_some hfind
        simpa using this
      have huniq : ∀ o ∈ st, o.key = k → o = o0 := fun o ho hk =>
        List.inj_on_of_nodup_map hst ho ho0mem (by rw [hk, ho0key])
      have hsd := shouldDeleteObject_of_find cutoff hfind
      by_cases hexp : objectExpired cutoff o0 = true
      · by_cases hfk : fails k = true
        · -- delete attempted but the DeleteObject call fails: bucket
          -- unchanged, and the object survives.
          rw [if_pos (hsd.mpr hexp)]
          unfold deleteObject
          rw [if_pos hfk, ih st hst hks']
          refine List.filter_congr fun o ho => ?_
          by_cases hok : o.key = k
          · have ho0 : o = o0 := huniq o ho hok
            have h1 : (o.key ∈ k :: ks) := by simp [hok]
            have h2 : ¬ (o.key ∈ ks) := by rw [hok]; exact hknotin
            rw [if_pos h1, if_neg h2]
            subst ho0
            unfold surviveCloud
            rw [ho0key, hfk]
            simp
          · exact if_congr (by simp [List.mem_cons, hok]) rfl rfl
        · -- delete attempted and succeeding: the object is removed.
          rw [if_pos (hsd.mpr hexp)]
          unfold deleteObject
          rw [if_neg hfk]
          have hsub : List.Sublist
              ((st.filter (fun o => ¬ o.key = k)).map (fun o => o.key))
              (st.map (fun o => o.key)) :=
            (List.filter_sublist st).map _
          rw [ih _ (hsub.nodup hst) hks', List.filter_filter]
          refine List.filter_congr fun o ho => ?_
          by_cases hok : o.key = k
          · have ho0 : o = o0 := huniq o ho hok
            have h1 : (o.key ∈ k :: ks) := by simp [hok]
            rw [if_pos h1]
            subst ho0
            have hfkf : fails k = false := by simpa using hfk
            simp [surviveCloud, hok, hexp, hfkf]
          · simp [List.mem_cons, hok]
      · -- the object is not deletable (fetch/parse failure or young
        -- timestamp): nothing is deleted for this key.
        rw [if_neg (fun h => hexp (hsd.mp h)), ih st hst hks']
        refine List.filter_congr fun o ho => ?_
        by_cases hok : o.key = k
        · have ho0 : o = o0 := huniq o ho hok
          have h1 : (o.key ∈ k :: ks) := by simp [hok]
          have h2 : ¬ (o.key ∈ ks) := by rw [hok]; exact hknotin
          rw [if_pos h1, if_neg h2]
          subst ho0
          unfold surviveCloud
          simp [Bool.eq_false_iff.mpr hexp]
        · exact if_congr (by simp [List.mem_cons, hok]) rfl rfl

/-- C8: one `CloudObjectStorage` cleanup pass with `maxAge` configured
deletes an object exactly when its fetch succeeds, its payload parses as a
snapshot, the snapshot's timestamp parses, that timestamp is before
`now - maxAge`, and the delete call itself succeeds; objects whose fetch or
parse fails survive, and no individual fetch or delete failure stops the
pass from processing every remaining object. -/
theorem claim8_cloud_cleanup (now maxAge : Nat) (fails : String → Bool)
    (store : List CloudObject) (hma : 0 < maxAge)
    (hnd : (store.map (fun o => o.key)).Nodup) :
    cloudCleanup now maxAge fails store
      = store.filter (surviveCloud (now - maxAge) fails) := by
  unfold cloudCleanup
  rw [if_neg (by omega),
    cleanupKeys_filter (now - maxAge) fails (store.map (fun o => o.key))
      store hnd hnd]
  exact List.filter_congr fun o ho =>
    if_pos (List.mem_map_of_mem _ ho)

/-- Witness for C8 at a concrete bucket: an expired object, a fresh
object, an unfetchable object and a malformed object. -/
theorem claim8_witness :
    0 < 10
      ∧ (([⟨"k1", some (some exSnap0)⟩, ⟨"k2", none⟩,
            ⟨"k3", some none⟩] : List CloudObject).map
          (fun o => o.key)).Nodup
      ∧ cloudCleanup 999999999999999999999999999 10 (fun _ => false)
            [⟨"k1", some (some exSnap0)⟩, ⟨"k2", none⟩, ⟨"k3", some none⟩]
          = ([⟨"k1", some (some exSnap0)⟩, ⟨"k2", none⟩,
              ⟨"k3", some none⟩] : List CloudObject).filter
              (surviveCloud (999999999999999999999999999 - 10)
                (fun _ => false)) :=
  ⟨by decide, by decide,
    claim8_cloud_cleanup 999999999999999999999999999 10 (fun _ => false)
      [⟨"k1", some (some exSnap0)⟩, ⟨"k2", none⟩, ⟨"k3", some none⟩]
      (by decide) (by decide)⟩

/-! ## Claim C4 -/

/-- The number of age-expired files: the length of the longest sorted
prefix of effective timestamps strictly before the cutoff (`0` when no age
limit is configured). -/
def ageCount (now maxAge : Nat) (files : List FileEntry) : Nat :=
  if 0 < maxAge then
    ((sortFiles files).takeWhile (fun f => f.timestamp < now - maxAge)).length
  else 0

/-- On an ascending-sorted file list, the age filter keeps exactly a
prefix: filtering by `timestamp < cutoff` equals taking while
`timestamp < cutoff`. -/
theorem filter_lt_eq_takeWhile_sorted (cutoff : Nat) :
    ∀ l : List FileEntry, List.Sorted fileLE l →
      l.filter (fun f => f.timestamp < cutoff)
        = l.takeWhile (fun f => f.timestamp < cutoff) := by
  intro l
  induction l with
  | nil => intro _; rfl
  | cons f t ih =>
    intro hs
    rw [List.sorted_cons] at hs
    rw [List.filter_cons, List.takeWhile_cons]
    by_cases hf : f.timestamp < cutoff
    · rw [if_pos (by simpa using hf), if_pos (by simpa using hf), ih hs.2]
    · rw [if_neg (by simpa using hf), if_neg (by simpa using hf)]
      rw [List.filter_eq_nil_iff]
      intro a ha
      have h1 : fileLE f a := hs.1 a ha
      unfold fileLE at h1
      simp only [decide_eq_true_eq]
      omega

/-- `countMark` with an exhausted budget marks nothing more. -/
theorem countMark_zero (marked : List String) :
    ∀ l : List FileEntry, countMark l 0 marked = marked := by
  intro l
  cases l with
  | nil => rfl
  | cons f t => simp [countMark]

/-- `countMark` skips over a leading block of already-marked files. -/
theorem countMark_marked (dc : Nat) :
    ∀ (pre post : List FileEntry) (marked : List String),
      (∀ f ∈ pre, f.path ∈ marked) →
      countMark (pre ++ post) dc marked = countMark post dc marked := by
  intro pre
  induction pre with
  | nil => intro post marked _; rfl
  | cons f t ih =>
    intro post marked hall
    by_cases hdc : dc = 0
    · subst hdc
      rw [countMark_zero, countMark_zero]
    · show countMark (f :: (t ++ post)) dc marked = _
      rw [show countMark (f :: (t ++ post)) dc marked
          = if dc = 0 then marked
            else if f.path ∈ marked then countMark (t ++ post) dc marked
            else countMark (t ++ post) (dc - 1) (marked ++ [f.path])
          from rfl]
      rw [if_neg hdc, if_pos (hall f (by simp))]
      exact ih post marked fun g hg => hall g (by simp [hg])

/-- `countMark` over files none of which is marked yet marks exactly the
first `dc` of them, in order. -/
theorem countMark_fresh :
    ∀ (post : List FileEntry) (dc : Nat) (marked : List String),
      (∀ f ∈ post, f.path ∉ marked) →
      (post.map (fun f => f.path)).Nodup →
      countMark post dc marked
        = marked ++ (post.take dc).map (fun f => f.path) := by
  intro post
  induction post with
  | nil => intro dc marked _ _; simp [countMark]
  | cons f t ih =>
    intro dc marked hfresh hnd
    by_cases hdc : dc = 0
    · subst hdc
      rw [countMark_zero]
      simp
    · rw [show countMark (f :: t) dc marked
          = if dc = 0 then marked
            else if f.path ∈ marked then countMark t dc marked
            else countMark t (dc - 1) (marked ++ [f.path])
          from rfl]
      rw [if_neg hdc, if_neg (hfresh f (by simp))]
      have hnd' : f.path ∉ t.map (fun g => g.path)
          ∧ (t.map (fun g => g.path)).Nodup := by
        rw [List.map_cons] at hnd
        exact List.nodup_cons.mp hnd
      rw [ih (dc - 1) (marked ++ [f.path])
          (fun g hg => by
            intro hmem
            rcases List.mem_append.mp hmem with h | h
            · exact hfresh g (by simp [hg]) h
            · rcases List.mem_singleton.mp h with h
              exact hnd'.1 (h ▸ List.mem_map_of_mem _ hg))
          hnd'.2]
      obtain ⟨dc', rfl⟩ : ∃ d, dc = d + 1 := ⟨dc - 1, by omega⟩
      simp [List.take_succ_cons]

/-- Marking a further `dc` files on top of the marks for the first `a`
sorted files marks exactly the first `a + dc` files. -/
theorem countMark_take (l : List FileEntry) (a dc : Nat)
    (hnd : (l.map (fun f => f.path)).Nodup) :
    countMark l dc ((l.take a).map (fun f => f.path))
      = (l.take (a + dc)).map (fun f => f.path) := by
  have hmap : l.map (fun f => f.path)
      = (l.take a).map (fun f => f.path)
        ++ (l.drop a).map (fun f => f.path) := by
    rw [← List.map_append, List.take_append_drop]
  rw [hmap] at hnd
  have hd := List.nodup_append.mp hnd
  have h1 := countMark_marked dc (l.take a) (l.drop a)
    ((l.take a).map (fun f => f.path))
    (fun f hf => List.mem_map_of_mem _ hf)
  rw [List.take_append_drop] at h1
  rw [h1, countMark_fresh (l.drop a) dc _
    (fun f hf hmem => hd.2.2 hmem (List.mem_map_of_mem _ hf))
    hd.2.1]
  rw [← List.map_append, ← List.take_add]

/-- Deleting the paths of the first `K` files of a duplicate-free list
leaves exactly the remaining suffix. -/
theorem filter_drop_of_nodup (l : List FileEntry) (K : Nat)
    (hnd : (l.map (fun f => f.path)).Nodup) :
    l.filter (fun f => ¬ f.path ∈ (l.take K).map (fun g => g.path))
      = l.drop K := by
  have hmap : l.map (fun f => f.path)
      = (l.take K).map (fun f => f.path)
        ++ (l.drop K).map (fun f => f.path) := by
    rw [← List.map_append, List.take_append_drop]
  rw [hmap] at hnd
  have hd := List.nodup_append.mp hnd
  have h1 : (l.take K ++ l.drop K).filter
      (fun f => ¬ f.path ∈ (l.take K).map (fun g => g.path)) = l.drop K := by
    rw [List.filter_append]
    have hA : (l.take K).filter
        (fun f => ¬ f.path ∈ (l.take K).map (fun g => g.path)) = [] := by
      rw [List.filter_eq_nil_iff]
      intro a ha
      simp only [decide_eq_true_eq, not_not, Decidable.not_not]
      exact List.mem_map_of_mem _ ha
    have hB : (l.drop K).filter
        (fun f => ¬ f.path ∈ (l.take K).map (fun g => g.path)) = l.drop K :=
      List.filter_eq_self.mpr fun b hb => by
        simp only [decide_eq_true_eq]
        exact fun hmem => hd.2.2 hmem (List.mem_map_of_mem _ hb)
    rw [hA, hB, List.nil_append]
  rw [List.take_append_drop] at h1
  exact h1

/-- The marking phase, characterized: with a file cap `C > 0`, the marked
paths are exactly the first `max a (n - C)` of the sorted order, where `a`
is the number of age-expired files and `n` the file count — age marks come
first, and count marks are drawn only from the files not already
age-marked. -/
theorem cleanupToDelete_eq (now maxAge C : Nat) (files : List FileEntry)
    (hC : 0 < C) (hnd : (files.map (fun f => f.path)).Nodup) :
    cleanupToDelete now maxAge C files
      = ((sortFiles files).take
          (max (ageCount now maxAge files) (files.length - C))).map
          (fun f => f.path) := by
  have hperm : List.Perm (sortFiles files) files :=
    List.perm_insertionSort _ _
  have hsortnd : ((sortFiles files).map (fun f => f.path)).Nodup :=
    ((hperm.map _).nodup_iff).mpr hnd
  have hlen : (sortFiles files).length = files.length := hperm.length_eq
  have hsorted : List.Sorted fileLE (sortFiles files) :=
    List.sorted_insertionSort fileLE files
  have hage : ageMarks now maxAge files
      = ((sortFiles files).take (ageCount now maxAge files)).map
          (fun f => f.path) := by
    unfold ageMarks ageCount
    by_cases hma : 0 < maxAge
    · rw [if_pos hma, if_pos hma,
        filter_lt_eq_takeWhile_sorted _ _ hsorted]
      congr 1
      exact List.prefix_iff_eq_take.mp ( List.takeWhile_prefix _)
    · rw [if_neg hma, if_neg hma]
      simp
  have hac_le : ageCount now maxAge files ≤ (sortFiles files).length := by
    unfold ageCount
    by_cases hma : 0 < maxAge
    · rw [if_pos hma]
      exact ( List.takeWhile_prefix _).sublist.length_le
    · rw [if_neg hma]; omega
  have hagelen : (ageMarks now maxAge files).length
      = ageCount now maxAge files := by
    rw [hage, List.length_map, List.length_take]
    omega
  unfold cleanupToDelete
  rw [if_pos hC, hagelen]
  by_cases hrem : C < (sortFiles files).length - ageCount now maxAge files
  · rw [if_pos hrem, hage, countMark_take _ _ _ hsortnd]
    congr 2
    omega
  · rw [if_neg hrem, hage]
    congr 2
    omega

/-- C4: one `ManagedFileStorage` reclamation pass with file cap `C`
deletes exactly the oldest `max a (n - C)` files in effective-timestamp
order (`a` = age-expired count, `n` = total): age marks are computed first
and count marks only against the unmarked remainder.  In particular with
no age limit (`maxAge = 0`) the survivors are exactly the `C` most recent
files, so at most `C` files survive. -/
theorem claim4_cleanup_count_retention (now maxAge C : Nat)
    (files : List FileEntry) (hC : 0 < C)
    (hnd : (files.map (fun f => f.path)).Nodup) :
    (cleanupSurvivors now maxAge C files).Perm
        ((sortFiles files).drop
          (max (ageCount now maxAge files) (files.length - C)))
      ∧ (maxAge = 0 →
          (cleanupSurvivors now maxAge C files).Perm
              ((sortFiles files).drop (files.length - C))
            ∧ (cleanupSurvivors now maxAge C files).length ≤ C) := by
  have hperm : List.Perm (sortFiles files) files :=
    List.perm_insertionSort _ _
  have hsortnd : ((sortFiles files).map (fun f => f.path)).Nodup :=
    ((hperm.map _).nodup_iff).mpr hnd
  have hlen : (sortFiles files).length = files.length := hperm.length_eq
  have hmain : (cleanupSurvivors now maxAge C files).Perm
      ((sortFiles files).drop
        (max (ageCount now maxAge files) (files.length - C))) := by
    unfold cleanupSurvivors
    rw [cleanupToDelete_eq now maxAge C files hC hnd]
    have step2 := filter_drop_of_nodup (sortFiles files)
      (max (ageCount now maxAge files) (files.length - C)) hsortnd
    rw [← step2]
    exact (hperm.filter _).symm
  refine ⟨hmain, fun h0 => ?_⟩
  subst h0
  have hac : ageCount now 0 files = 0 := by
    unfold ageCount
    rw [if_neg (by omega)]
  rw [hac] at hmain
  have hmax : max 0 (files.length - C) = files.length - C := Nat.zero_max _
  rw [hmax] at hmain
  refine ⟨hmain, ?_⟩
  have hl := hmain.length_eq
  rw [List.length_drop, hlen] at hl
  omega

/-- Witness for C4 at a concrete directory: three files, cap two, no age
limit. -/
theorem claim4_witness :
    0 < 2
      ∧ (([⟨"a.json", 1⟩, ⟨"b.json", 2⟩, ⟨"c.json", 3⟩] :
          List FileEntry).map (fun f => f.path)).Nodup
      ∧ ((cleanupSurvivors 100 0 2
            [⟨"a.json", 1⟩, ⟨"b.json", 2⟩, ⟨"c.json", 3⟩]).Perm
          ((sortFiles [⟨"a.json", 1⟩, ⟨"b.json", 2⟩, ⟨"c.json", 3⟩]).drop
            (max (ageCount 100 0
                [⟨"a.json", 1⟩, ⟨"b.json", 2⟩, ⟨"c.json", 3⟩])
              (([⟨"a.json", 1⟩, ⟨"b.json", 2⟩, ⟨"c.json", 3⟩] :
                  List FileEntry).length - 2)))
        ∧ ((0 : Nat) = 0 →
            (cleanupSurvivors 100 0 2
                [⟨"a.json", 1⟩, ⟨"b.json", 2⟩, ⟨"c.json", 3⟩]).Perm
                ((sortFiles
                    [⟨"a.json", 1⟩, ⟨"b.json", 2⟩, ⟨"c.json", 3⟩]).drop
                  (([⟨"a.json", 1⟩, ⟨"b.json", 2⟩, ⟨"c.json", 3⟩] :
                      List FileEntry).length - 2))
              ∧ (cleanupSurvivors 100 0 2
                  [⟨"a.json", 1⟩, ⟨"b.json", 2⟩,
                    ⟨"c.json", 3⟩]).length ≤ 2)) :=
  ⟨by decide, by decide,
    claim4_cleanup_count_retention 100 0 2
      [⟨"a.json", 1⟩, ⟨"b.json", 2⟩, ⟨"c.json", 3⟩] (by decide) (by decide)⟩

end Inspectd
